import Mathlib

/-!
Verification of the command-interpretation and world-state engine of the
text-adventure program `adventure.py` (version 4 of the project).

The development shallowly embeds the program:

* raw decoded JSON documents are modelled by `JValue`, and `validate_map`
  transcribes the map validator over them (the value `none` marks a place
  where the Python code would raise an uncaught exception);
* the validated world and the running game are modelled by the structures
  `Room`, `GameMap`, `GameState` (mirroring the class `GameState`);
* each per-verb handler (`handle_go`, `handle_direction`, `handle_look`,
  `handle_get`, `handle_drop`, `handle_inventory`, `handle_help`) and the
  dispatcher `process_command` are transcribed as functions from game state
  to `Option TurnResult`, where `TurnResult` records the returned response
  string, the new state, and the arguments the handler passed directly to
  the console `print` (the dispatcher and `handle_go` / `handle_direction`
  print besides returning);
* Python string operations used by the program (`str.strip`, `str.lower`,
  `str.split`, slicing, `str.join`) are given executable models over the
  character list of a `String`, so every definition evaluates inside the
  kernel on concrete inputs.
-/

/-! ## Python string primitives -/

/-- Model of ASCII lowering as done by `str.lower` on the command
vocabulary (the game only compares ASCII words). -/
def lowerChar (c : Char) : Char :=
  if 'A' ≤ c ∧ c ≤ 'Z' then Char.ofNat (c.toNat + 32) else c

/-- Model of `str.lower`. -/
def pyLower (s : String) : String := String.mk (s.data.map lowerChar)

/-- Model of `str.strip` with no argument: remove leading and trailing
whitespace. -/
def pyStrip (s : String) : String :=
  String.mk (((s.data.dropWhile Char.isWhitespace).reverse.dropWhile
    Char.isWhitespace).reverse)

/-- Helper for `pySplit`: walk the characters, accumulating the current
word (reversed) and emitting it at each whitespace run. -/
def splitAux : List Char → List Char → List String
  | [], [] => []
  | [], acc => [String.mk acc.reverse]
  | c :: cs, acc =>
    if c.isWhitespace then
      (if acc.isEmpty then splitAux cs [] else String.mk acc.reverse :: splitAux cs [])
    else splitAux cs (c :: acc)

/-- Model of `str.split` with no argument: split on whitespace runs,
discarding empty pieces. -/
def pySplit (s : String) : List String := splitAux s.data []

/-- Model of the slice `s[n:]`. -/
def pyDrop (n : Nat) (s : String) : String := String.mk (s.data.drop n)

/-- Model of `sep.join(parts)`. -/
def pyJoin (sep : String) : List String → String
  | [] => ""
  | x :: xs => xs.foldl (fun a b => a ++ sep ++ b) x

/-! ## Raw JSON documents and the map validator

`adventure.py` validates the decoded JSON document before building the
game state, so the validator is embedded over a model `JValue` of decoded
JSON values.  `JValue.other` stands for every scalar that is neither a
string nor a container (numbers, booleans, null): the validator only ever
asks such a value whether it is a string or a dict, or crashes trying to
iterate or index it. -/

inductive JValue where
  | str (s : String)
  | obj (kvs : List (String × JValue))
  | arr (elems : List JValue)
  | other
deriving Repr

/-- Lookup in a decoded JSON object (`d[k]` / `k in d`).  JSON decoding in
Python yields dictionaries with distinct keys, so taking the first match
is faithful. -/
def jLookup (kvs : List (String × JValue)) (k : String) : Option JValue :=
  (kvs.find? (fun kv => kv.1 == k)).map (fun kv => kv.2)

/-- Python membership `s in l` for a string `s` and a decoded JSON list
`l`: equality against each element; a non-string element never equals a
string. -/
def jHasStr (elems : List JValue) (s : String) : Bool :=
  elems.any (fun j => match j with | .str t => t == s | _ => false)

/-- Is the needle a prefix of the haystack (character lists)? -/
def isPrefixList : List Char → List Char → Bool
  | [], _ => true
  | _ :: _, [] => false
  | a :: as, b :: bs => a == b && isPrefixList as bs

/-- Does the needle occur as a contiguous run of the haystack? -/
def hasSubList (needle : List Char) : List Char → Bool
  | [] => needle.isEmpty
  | c :: cs => isPrefixList needle (c :: cs) || hasSubList needle cs

/-- Python membership `needle in hay` for two strings: substring test. -/
def strContains (hay needle : String) : Bool := hasSubList needle.data hay.data

/-- Python iteration `for x in v`: a list yields its elements, a dict its
keys, a string its characters (as one-character strings); anything else
raises `TypeError` (`none`). -/
def jIterate : JValue → Option (List JValue)
  | .arr l => some l
  | .obj kvs => some (kvs.map (fun kv => JValue.str kv.1))
  | .str s => some (s.data.map (fun c => JValue.str (String.mk [c])))
  | .other => none

/-- Is the JSON value a string (`isinstance(v, str)`)? -/
def isStrJ : JValue → Bool
  | .str _ => true
  | _ => false

/-- Outcome of the first room loop of `validate_map`: the code either
raises (`crash`), returns `False` (`rejected`), or finishes the loop
having collected `room_names` (`ok`). -/
inductive ScanResult where
  | crash
  | rejected
  | ok (names : List String)
deriving Repr

/-- First loop of `validate_map` (adventure.py lines 28-43): per room,
check the three required fields are present, check their types, reject a
duplicate name, and collect `room_names`.  The inner loop over exits in
the source only executes `continue` and is a no-op. -/
def roomScan : List JValue → List String → ScanResult
  | [], names => .ok names
  | room :: rest, names =>
    match room with
    | .obj f =>
      match jLookup f "name", jLookup f "desc", jLookup f "exits" with
      | some n, some d, some e =>
        match n, e with
        | .str nm, .obj _ =>
          if isStrJ d then
            (if names.contains nm then .rejected else roomScan rest (nm :: names))
          else .rejected
        | _, _ => .rejected
      | _, _, _ => .rejected
    | .arr l =>
      -- a room that is a JSON list: `"name" in room` is element equality;
      -- if all three strings happen to be elements, `room["name"]` raises
      if jHasStr l "name" && jHasStr l "desc" && jHasStr l "exits" then .crash
      else .rejected
    | .str s =>
      -- a room that is a string: `"name" in room` is a substring test;
      -- if all three needles occur, `room["name"]` raises
      if strContains s "name" && strContains s "desc" && strContains s "exits" then .crash
      else .rejected
    | .other => .crash

/-- Second loop of `validate_map` (adventure.py lines 46-50): every exit
value of every room must be a member of the collected `room_names` set (a
non-string exit value never equals a collected name). -/
def exitScan : List JValue → List String → Option Bool
  | [], _ => some true
  | room :: rest, names =>
    match room with
    | .obj f =>
      match jLookup f "exits" with
      | some (.obj exits) =>
        if exits.all (fun kv => match kv.2 with | .str t => names.contains t | _ => false) then
          exitScan rest names
        else some false
      | _ => none
    | _ => none

/-- Transcription of `validate_map` (adventure.py lines 22-51).  Result
`some b` is the returned boolean; `none` marks inputs on which the Python
function raises an uncaught exception. -/
def validate_map (game_map : JValue) : Option Bool :=
  match game_map with
  | .obj kvs =>
    match jLookup kvs "start", jLookup kvs "rooms" with
    | some _, some roomsv =>
      match jIterate roomsv with
      | some rooms =>
        match roomScan rooms [] with
        | .crash => none
        | .rejected => some false
        | .ok names => exitScan rooms names
      | none => none
    | _, _ => some false
  | .arr elems =>
    -- `"start" in game_map` on a list is element equality; if both keys
    -- are present as elements, `game_map["rooms"]` raises
    if jHasStr elems "start" && jHasStr elems "rooms" then none else some false
  | .str s =>
    -- `"start" in game_map` on a string is a substring test
    if strContains s "start" && strContains s "rooms" then none else some false
  | .other => none

/-! ## The structured world and game state -/

/-- A room of the world model: the fields a validated room carries.  The
optional `items` field holds the mutable item list of the room. -/
structure Room where
  name : String
  desc : String
  exits : List (String × String)
  items : Option (List String)
deriving Repr, DecidableEq

/-- The world model: the designated start room identity plus the room
list (the decoded `game_map` dictionary). -/
structure GameMap where
  start : String
  rooms : List Room
deriving Repr, DecidableEq

/-- Transcription of the class `GameState` (adventure.py lines 54-59):
the map, the current room identity, and the inventory.  The rooms live
inside `game_map` because the Python handlers mutate the room
dictionaries of the map in place. -/
structure GameState where
  game_map : GameMap
  current_room : String
  inventory : List String
deriving Repr, DecidableEq

/-- Transcription of `GameState.__init__`: start at the map's start room
with an empty inventory. -/
def GameState.init (gm : GameMap) : GameState := ⟨gm, gm.start, []⟩

/-- Transcription of `GameState.get_current_room`: the first room of the
map whose name equals the current room identity, if any. -/
def get_current_room (st : GameState) : Option Room :=
  st.game_map.rooms.find? (fun r => r.name == st.current_room)

/-! ## Decoding a validated document into the structured world

The running game reads the decoded JSON document directly; the structured
`GameMap` is the same data with its shape made explicit.  `decodeMap`
ties a `JValue` document to the `GameMap` the game plays (it succeeds on
the documents whose rooms have string names and descriptions, dict exits
with string targets, and, when present, an item list of strings — the
shape the data model of the specification describes). -/

/-- Decode an exits dictionary: every value must be a room name string. -/
def decodeExits : List (String × JValue) → Option (List (String × String))
  | [] => some []
  | (k, .str v) :: rest =>
    match decodeExits rest with
    | some l => some ((k, v) :: l)
    | none => none
  | _ => none

/-- Decode an item list: every element must be an item name string. -/
def decodeItems : List JValue → Option (List String)
  | [] => some []
  | .str s :: rest =>
    match decodeItems rest with
    | some l => some (s :: l)
    | none => none
  | _ => none

/-- Decode one room record. -/
def decodeRoom (j : JValue) : Option Room :=
  match j with
  | .obj f =>
    match jLookup f "name", jLookup f "desc", jLookup f "exits" with
    | some (.str nm), some (.str d), some (.obj e) =>
      match decodeExits e with
      | some exits =>
        match jLookup f "items" with
        | none => some ⟨nm, d, exits, none⟩
        | some (.arr l) =>
          match decodeItems l with
          | some its => some ⟨nm, d, exits, some its⟩
          | none => none
        | some _ => none
      | none => none
    | _, _, _ => none
  | _ => none

/-- Decode a room list elementwise. -/
def decodeRooms : List JValue → Option (List Room)
  | [] => some []
  | j :: rest =>
    match decodeRoom j, decodeRooms rest with
    | some r, some rs => some (r :: rs)
    | _, _ => none

/-- Decode a whole world document. -/
def decodeMap (j : JValue) : Option GameMap :=
  match j with
  | .obj kvs =>
    match jLookup kvs "start", jLookup kvs "rooms" with
    | some (.str s), some (.arr rooms) =>
      match decodeRooms rooms with
      | some rs => some ⟨s, rs⟩
      | none => none
    | _, _ => none
  | _ => none

/-! ## The command engine -/

/-- The observable outcome of one processed command: the strings the code
passed directly to `print` (in order; `print` appends a newline to each),
the string the function returned, and the game state afterwards. -/
structure TurnResult where
  printed : List String
  response : String
  state : GameState
deriving Repr, DecidableEq

/-- Lookup `exits[d]` in a room's exits dictionary (`d in room["exits"]`
is `(lookupExit ...).isSome`). -/
def lookupExit (exits : List (String × String)) (d : String) : Option String :=
  (exits.find? (fun kv => kv.1 == d)).map (fun kv => kv.2)

/-- The string `look` builds for a room it found (adventure.py lines
131-137): the items line appears only when the room has a non-empty item
list (`if "items" in room and room["items"]`). -/
def room_description (room : Room) : String :=
  match room.items with
  | some its =>
    if its.isEmpty then
      "> " ++ room.name ++ "\n\n" ++ room.desc ++ "\n\nExits: " ++
        pyJoin " " (room.exits.map (fun kv => kv.1)) ++ "\n"
    else
      "> " ++ room.name ++ "\n\n" ++ room.desc ++ "\n\nItems: " ++
        pyJoin " " its ++ "\n\nExits: " ++
        pyJoin " " (room.exits.map (fun kv => kv.1)) ++ "\n"
  | none =>
    "> " ++ room.name ++ "\n\n" ++ room.desc ++ "\n\nExits: " ++
      pyJoin " " (room.exits.map (fun kv => kv.1)) ++ "\n"

/-- Transcription of `look` (adventure.py lines 129-137): render the
current room.  `none` marks the crash on a dangling current room. -/
def look (st : GameState) : Option String :=
  match get_current_room st with
  | none => none
  | some room => some (room_description room)

/-- Replace the first list element satisfying the predicate (Python
mutates the room dictionary that `get_current_room` returned, which is
the first one with a matching name). -/
def updateFirst (p : α → Bool) (f : α → α) : List α → List α
  | [] => []
  | x :: xs => if p x then f x :: xs else x :: updateFirst p f xs

/-- Overwrite the item list of the first room named `nm`. -/
def setRoomItems (rooms : List Room) (nm : String) (its : List String) : List Room :=
  updateFirst (fun r => r.name == nm) (fun r => { r with items := some its }) rooms

/-- Transcription of `handle_go` (adventure.py lines 104-113): the
direction argument is the word list after `go`; only its head is used and
it must equal an exit name exactly.  On success the code prints
"You go `<direction>`.\n" and returns the `look` rendering of the new
room. -/
def handle_go (direction : List String) (st : GameState) : Option TurnResult :=
  match direction with
  | [] => some ⟨[], "Sorry, you need to \x27go\x27 somewhere.", st⟩
  | d :: _ =>
    match get_current_room st with
    | none => none
    | some room =>
      match lookupExit room.exits d with
      | some target =>
        match look { st with current_room := target } with
        | some desc =>
          some ⟨["You go " ++ d ++ ".\n"], desc, { st with current_room := target }⟩
        | none => none
      | none => some ⟨[], "There\x27s no way to go " ++ d ++ ".", st⟩

/-- Transcription of `handle_direction` (adventure.py lines 117-124):
identical to the non-empty case of `handle_go`, taking the direction as a
single string. -/
def handle_direction (d : String) (st : GameState) : Option TurnResult :=
  match get_current_room st with
  | none => none
  | some room =>
    match lookupExit room.exits d with
    | some target =>
      match look { st with current_room := target } with
      | some desc =>
        some ⟨["You go " ++ d ++ ".\n"], desc, { st with current_room := target }⟩
      | none => none
    | none => some ⟨[], "There\x27s no way to go " ++ d ++ ".", st⟩

/-- Transcription of `handle_look` (adventure.py lines 126-127). -/
def handle_look (st : GameState) : Option TurnResult :=
  match look st with
  | some desc => some ⟨[], desc, st⟩
  | none => none

/-- Transcription of `handle_get` (adventure.py lines 140-149): the item
argument must be a member of the current room's item list (exact string
equality); then `list.remove` drops its first occurrence from the room
and `append` adds it to the inventory. -/
def handle_get (items : String) (st : GameState) : Option TurnResult :=
  if items = "" then some ⟨[], "Sorry, you need to \x27get\x27 something.", st⟩
  else
    match get_current_room st with
    | none => none
    | some room =>
      match room.items with
      | some roomItems =>
        if roomItems.contains items then
          some ⟨[], "You pick up the " ++ items ++ ".",
            { st with
              game_map := { st.game_map with
                rooms := setRoomItems st.game_map.rooms st.current_room
                  (roomItems.erase items) },
              inventory := st.inventory ++ [items] }⟩
        else some ⟨[], "There\x27s no " ++ items ++ " anywhere.", st⟩
      | none => some ⟨[], "There\x27s no " ++ items ++ " anywhere.", st⟩

/-- Transcription of `handle_drop` (adventure.py lines 152-161): the drop
succeeds only when the current room has an `items` field and the exact
name is in the inventory; then `list.remove` drops its first occurrence
from the inventory and `append` adds it to the room. -/
def handle_drop (items : String) (st : GameState) : Option TurnResult :=
  if items = "" then some ⟨[], "Sorry, you need to \x27drop\x27 something.", st⟩
  else
    match get_current_room st with
    | none => none
    | some room =>
      match room.items with
      | some roomItems =>
        if st.inventory.contains items then
          some ⟨[], "You drop the " ++ items ++ ".",
            { st with
              game_map := { st.game_map with
                rooms := setRoomItems st.game_map.rooms st.current_room
                  (roomItems ++ [items]) },
              inventory := st.inventory.erase items }⟩
        else
          some ⟨[], "You don\x27t have " ++ items ++ " or you can\x27t drop " ++
            items ++ " in this room", st⟩
      | none =>
        some ⟨[], "You don\x27t have " ++ items ++ " or you can\x27t drop " ++
          items ++ " in this room", st⟩

/-- Transcription of `handle_inventory` (adventure.py lines 163-167). -/
def handle_inventory (st : GameState) : String :=
  if st.inventory.isEmpty then "You\x27re not carrying anything."
  else "Inventory:\n  " ++ pyJoin "\n  " st.inventory

/-- The keys of `function_dict` (adventure.py lines 69-77), in insertion
order: this is both the dispatch vocabulary and what `handle_help`
enumerates. -/
def function_dict_keys : List String :=
  ["go", "east", "west", "south", "north", "southeast", "southwest",
   "northeast", "northwest", "look", "get", "drop", "inventory", "help", "quit"]

/-- Transcription of `handle_help` (adventure.py lines 171-178): a header
line, then every key of `function_dict` on its own line, then
`str.strip`. -/
def handle_help (keys : List String) : String :=
  pyStrip (keys.foldl (fun s i => s ++ i ++ "\n")
    ("" ++ "You can run the following commands:" ++ "\n"))

/-- The dispatch chain of `process_command` (adventure.py lines 82-102)
for a non-empty word list: `cmd` is the first lowered word, `rest` the
remaining words, and `command` the raw line (the `get` and `drop`
branches slice their argument out of the raw line). -/
def dispatch (command : String) (cmd : String) (rest : List String)
    (game_state : GameState) : Option TurnResult :=
  if cmd = "quit" then some ⟨["Goodbye!"], "quit", game_state⟩
  else if cmd = "go" then handle_go rest game_state
  else if cmd = "east" ∨ cmd = "west" ∨ cmd = "south" ∨ cmd = "north" ∨
      cmd = "southeast" ∨ cmd = "southwest" ∨ cmd = "northeast" ∨
      cmd = "northwest" then
    handle_direction cmd game_state
  else if cmd = "look" then handle_look game_state
  else if cmd = "get" then handle_get (pyStrip (pyDrop 3 command)) game_state
  else if cmd = "drop" then handle_drop (pyStrip (pyDrop 4 command)) game_state
  else if cmd = "inventory" then
    some ⟨[], handle_inventory game_state, game_state⟩
  else if cmd = "help" then
    some ⟨[], handle_help function_dict_keys, game_state⟩
  else some ⟨[], "Use \x27quit\x27 to exit.", game_state⟩

/-- Transcription of `process_command` (adventure.py lines 65-102):
lower-case and split the line, answer the empty line, otherwise dispatch
on the first word. -/
def process_command (command : String) (game_state : GameState) : Option TurnResult :=
  match pySplit (pyLower (pyStrip command)) with
  | [] => some ⟨[], "You need to enter a command.", game_state⟩
  | cmd :: rest => dispatch command cmd rest game_state

/-- The main loop of the program restricted to its core: feed the lines
to `process_command` one turn at a time, threading the state.  (`quit`
returns the state unchanged, so running past it does not disturb any
state invariant.) -/
def runCommands : List String → GameState → Option GameState
  | [], st => some st
  | c :: cs, st =>
    match process_command c st with
    | some r => runCommands cs r.state
    | none => none

/-! ## Concrete worlds used by the witnesses and counterexamples -/

/-- Room A of the test world: one exit north to B. -/
def roomA : Room := ⟨"A", "You are in room A.", [("north", "B")], none⟩

/-- Room B of the test world: its only exit is south, back to A, and it
holds one item. -/
def roomB : Room := ⟨"B", "You are in room B.", [("south", "A")], some ["key"]⟩

/-- Room N of the test world: three exits whose names share the proper
prefix "n". -/
def roomN : Room :=
  ⟨"N", "You are in room N.",
   [("north", "A"), ("northeast", "A"), ("northwest", "A")], none⟩

/-- Room G of the test world: holds the two items of the substring
resolution example. -/
def roomG : Room := ⟨"G", "You are in room G.", [("north", "A")], some ["deck of cards", "bandana"]⟩

/-- Room C of the test world: a room without an items field. -/
def roomC : Room := ⟨"C", "You are in room C.", [("north", "A")], none⟩

/-- The test world. -/
def map1 : GameMap := ⟨"A", [roomA, roomB, roomN, roomG, roomC]⟩

/-- The test world with the player standing in room B. -/
def stB : GameState := ⟨map1, "B", []⟩

/-- The test world with the player standing in room N. -/
def stN : GameState := ⟨map1, "N", []⟩

/-- The test world with the player standing in room G. -/
def stG : GameState := ⟨map1, "G", []⟩

/-- The test world with the player standing in room C, carrying the key. -/
def stC : GameState := ⟨map1, "C", ["key"]⟩

/-- A world document whose start identity names no room: `validate_map`
accepts it. -/
def jNoStart : JValue :=
  .obj [("start", .str "nowhere"),
        ("rooms", .arr [.obj [("name", .str "A"), ("desc", .str "d"),
                              ("exits", .obj [])]])]

/-- The structured world `jNoStart` decodes to. -/
def gmNoStart : GameMap := ⟨"nowhere", [⟨"A", "d", [], none⟩]⟩

/-! ## Validity of a world and of a game state -/

/-- The name set of the world model (the identities of its rooms). -/
def roomNames (gm : GameMap) : List String := gm.rooms.map Room.name

/-- The structured reading of the second loop of `validate_map`: every
exit target of every room is a member of the name set. -/
def exits_ok (gm : GameMap) : Bool :=
  gm.rooms.all (fun r => r.exits.all (fun kv => (roomNames gm).contains kv.2))

/-- A game state the turn loop can safely process: the map has no
dangling exit and the current room identity names a room. -/
def validState (st : GameState) : Prop :=
  exits_ok st.game_map = true ∧ st.current_room ∈ roomNames st.game_map

/-- The malformed or semantically invalid player commands enumerated by
the specification's failure classification, evaluated against a game
state: the empty line, an unknown first word, `go` with no argument, a
direction (after `go` or bare) that is not an exit of the current room,
and a `get` or `drop` whose argument is empty or names no item that the
respective handler could take or drop. -/
def invalidDispatch (command cmd : String) (rest : List String)
    (st : GameState) : Bool :=
  if cmd = "go" then
      match rest with
      | [] => true
      | d :: _ =>
        match get_current_room st with
        | some room => (lookupExit room.exits d).isNone
        | none => false
    else if cmd = "east" ∨ cmd = "west" ∨ cmd = "south" ∨ cmd = "north" ∨
        cmd = "southeast" ∨ cmd = "southwest" ∨ cmd = "northeast" ∨
        cmd = "northwest" then
      match get_current_room st with
      | some room => (lookupExit room.exits cmd).isNone
      | none => false
    else if cmd = "get" then
      match get_current_room st with
      | some room =>
        pyStrip (pyDrop 3 command) == "" ||
          !(match room.items with
            | some its => its.contains (pyStrip (pyDrop 3 command))
            | none => false)
      | none => false
    else if cmd = "drop" then
      match get_current_room st with
      | some room =>
        pyStrip (pyDrop 4 command) == "" ||
          !((match room.items with | some _ => true | none => false) &&
            st.inventory.contains (pyStrip (pyDrop 4 command)))
      | none => false
    else if cmd = "quit" ∨ cmd = "look" ∨ cmd = "inventory" ∨ cmd = "help" then
      false
    else true

/-- The malformed or semantically invalid player commands of the
specification's failure classification include the empty line as well:
the full per-line classification. -/
def invalidCommand (command : String) (st : GameState) : Bool :=
  match pySplit (pyLower (pyStrip command)) with
  | [] => true
  | cmd :: rest => invalidDispatch command cmd rest st

/-- A state the session can be in after some sequence of processed
lines, starting from the initial state of a world. -/
def Reachable (gm : GameMap) (st : GameState) : Prop :=
  ∃ cmds, runCommands cmds (GameState.init gm) = some st

/-! ## Helper lemmas about the embedding -/

/-- A string of length above four is not the string "quit". -/
theorem ne_quit_of_len (s : String) (h : 4 < s.length) : s ≠ "quit" := by
  intro he
  rw [he] at h
  exact absurd h (by decide)

/-- A string with a fixed long left part is not the string "quit". -/
theorem append_ne_quit (a d b : String) (ha : 4 < a.length) :
    a ++ d ++ b ≠ "quit" := by
  apply ne_quit_of_len
  rw [String.length_append, String.length_append]
  omega

/-- When the current room identity is in the name set, the room lookup of
the game state succeeds with a room of that name. -/
theorem get_current_room_of_mem (st : GameState)
    (h : st.current_room ∈ roomNames st.game_map) :
    ∃ room, get_current_room st = some room ∧ room ∈ st.game_map.rooms ∧
      room.name = st.current_room := by
  obtain ⟨r, hr, hname⟩ := List.mem_map.mp h
  have hsome : (st.game_map.rooms.find? (fun r => r.name == st.current_room)).isSome := by
    rw [List.find?_isSome]
    exact ⟨r, hr, by simp [hname]⟩
  obtain ⟨room, hfind⟩ := Option.isSome_iff_exists.mp hsome
  refine ⟨room, hfind, List.mem_of_find?_eq_some hfind, ?_⟩
  have := List.find?_some hfind
  simpa using this

/-- When the current room identity is in the name set, `look` renders a
description. -/
theorem look_isSome (st : GameState)
    (h : st.current_room ∈ roomNames st.game_map) :
    ∃ desc, look st = some desc := by
  obtain ⟨room, hfind, -, -⟩ := get_current_room_of_mem st h
  exact ⟨room_description room, by simp only [look, hfind]⟩

/-- In a world with no dangling exit, every exit target of a member room
is in the name set. -/
theorem exit_target_mem (gm : GameMap) (h : exits_ok gm = true)
    (room : Room) (hroom : room ∈ gm.rooms) (d t : String)
    (hex : lookupExit room.exits d = some t) : t ∈ roomNames gm := by
  obtain ⟨kv, hkv, hv⟩ := Option.map_eq_some'.mp hex
  have hkvmem : kv ∈ room.exits := List.mem_of_find?_eq_some hkv
  rw [exits_ok, List.all_eq_true] at h
  have := h room hroom
  rw [List.all_eq_true] at this
  have := this kv hkvmem
  rw [← hv]
  simpa using this

/-- Mapping a function over `updateFirst` is the plain map when the
update does not change the mapped value. -/
theorem updateFirst_map (g : α → β) (p : α → Bool) (f : α → α)
    (hf : ∀ a, g (f a) = g a) :
    ∀ l : List α, (updateFirst p f l).map g = l.map g := by
  intro l
  induction l with
  | nil => rfl
  | cons x xs ih =>
    by_cases hp : p x <;> simp [updateFirst, hp, hf, ih]

/-- Finding with the same predicate after `updateFirst` finds the updated
element, when the update preserves the predicate. -/
theorem find?_updateFirst (p : α → Bool) (f : α → α)
    (hp : ∀ a, p (f a) = p a) :
    ∀ l : List α, (updateFirst p f l).find? p = (l.find? p).map f := by
  intro l
  induction l with
  | nil => rfl
  | cons x xs ih =>
    cases hx : p x with
    | true =>
      rw [updateFirst]
      simp only [hx, if_true]
      rw [List.find?_cons_of_pos _ (by rw [hp]; exact hx),
        List.find?_cons_of_pos _ hx, Option.map_some']
    | false =>
      rw [updateFirst]
      simp only [hx, if_false, Bool.false_eq_true]
      rw [List.find?_cons_of_neg _ (by simp [hp, hx]),
        List.find?_cons_of_neg _ (by simp [hx]), ih]

/-- An `all` check is unchanged by `updateFirst` when the update
preserves the checked property. -/
theorem updateFirst_all (q p : α → Bool) (f : α → α)
    (hq : ∀ a, q (f a) = q a) :
    ∀ l : List α, (updateFirst p f l).all q = l.all q := by
  intro l
  induction l with
  | nil => rfl
  | cons x xs ih =>
    by_cases hp : p x <;> simp [updateFirst, hp, hq, ih]

/-- Rewriting item lists never changes the name set of the world. -/
theorem roomNames_setRoomItems (gm : GameMap) (nm : String) (its : List String) :
    roomNames { gm with rooms := setRoomItems gm.rooms nm its } = roomNames gm := by
  have h := updateFirst_map Room.name (fun r => r.name == nm)
    (fun r => { r with items := some its }) (fun a => rfl) gm.rooms
  exact h

/-- Rewriting item lists never creates a dangling exit. -/
theorem exits_ok_setRoomItems (gm : GameMap) (nm : String) (its : List String) :
    exits_ok { gm with rooms := setRoomItems gm.rooms nm its } = exits_ok gm := by
  have hn := roomNames_setRoomItems gm nm its
  simp only [exits_ok]
  rw [hn]
  have h := updateFirst_all
    (fun r => r.exits.all fun kv => (roomNames gm).contains kv.2)
    (fun r => r.name == nm) (fun r => { r with items := some its })
    (fun a => rfl) gm.rooms
  exact h

/-- Looking the current room up again after rewriting its item list
yields the same room carrying the new list. -/
theorem get_current_room_setRoomItems (st : GameState) (room : Room)
    (hfind : get_current_room st = some room) (its inv : List String) :
    get_current_room
      { st with
        game_map := { st.game_map with
          rooms := setRoomItems st.game_map.rooms st.current_room its },
        inventory := inv } =
      some { room with items := some its } := by
  rw [get_current_room] at hfind ⊢
  show (setRoomItems st.game_map.rooms st.current_room its).find?
    (fun r => r.name == st.current_room) = _
  have h := find?_updateFirst (fun (r : Room) => r.name == st.current_room)
    (fun (r : Room) => { r with items := some its }) (fun a => rfl)
    st.game_map.rooms
  rw [setRoomItems, h, hfind, Option.map_some']

/-- Erasing one occurrence and appending the same element is a
permutation, hence preserves membership. -/
theorem erase_append_self_perm (l : List String) (x : String) (hx : x ∈ l) :
    (l.erase x ++ [x]).Perm l :=
  (List.perm_append_singleton x (l.erase x)).trans (List.perm_cons_erase hx).symm

/-- Appending an element and erasing its first occurrence again is a
permutation of the original list. -/
theorem append_erase_self_perm (l : List String) (x : String) :
    ((l ++ [x]).erase x).Perm l := by
  by_cases hx : x ∈ l
  · rw [List.erase_append_left _ hx]
    exact (List.perm_append_singleton x (l.erase x)).trans
      (List.perm_cons_erase hx).symm
  · rw [List.erase_append_right _ hx, List.erase_cons_head]
    simp

/-- The `go` handler with no argument asks for a destination. -/
theorem handle_go_nil (st : GameState) :
    handle_go [] st = some ⟨[], "Sorry, you need to \x27go\x27 somewhere.", st⟩ := rfl

/-- The `go` handler with at least one word behaves exactly as the bare
direction handler on the first word (the two source functions duplicate
the same body). -/
theorem handle_go_cons (d : String) (rest : List String) (st : GameState) :
    handle_go (d :: rest) st = handle_direction d st := rfl

/-- The direction handler on a word that is not an exit name reports
there is no way and keeps the state. -/
theorem handle_direction_noexit (d : String) (st : GameState) (room : Room)
    (hroom : get_current_room st = some room)
    (hex : lookupExit room.exits d = none) :
    handle_direction d st =
      some ⟨[], "There\x27s no way to go " ++ d ++ ".", st⟩ := by
  simp only [handle_direction, hroom, hex]

/-- The direction handler on an exit name moves the player, prints the
"You go" line, and returns the rendering of the new room. -/
theorem handle_direction_exit (d : String) (st : GameState) (room : Room)
    (target : String) (hroom : get_current_room st = some room)
    (hex : lookupExit room.exits d = some target)
    (hmem : target ∈ roomNames st.game_map) :
    ∃ desc, look { st with current_room := target } = some desc ∧
      handle_direction d st =
        some ⟨["You go " ++ d ++ ".\n"], desc, { st with current_room := target }⟩ := by
  have hmem2 : ({ st with current_room := target } : GameState).current_room ∈
      roomNames ({ st with current_room := target } : GameState).game_map := hmem
  obtain ⟨desc, hdesc⟩ := look_isSome _ hmem2
  exact ⟨desc, hdesc, by simp only [handle_direction, hroom, hex, hdesc]⟩

/-- The `get` handler with an empty argument asks for an item name. -/
theorem handle_get_empty (st : GameState) :
    handle_get "" st = some ⟨[], "Sorry, you need to \x27get\x27 something.", st⟩ := rfl

/-- The `get` handler on an item present in the room (exact name) moves
its first occurrence from the room's item list to the end of the
inventory. -/
theorem handle_get_found (st : GameState) (room : Room) (its : List String)
    (tok : String) (hroom : get_current_room st = some room)
    (hits : room.items = some its) (htok : tok ∈ its) (hne : tok ≠ "") :
    handle_get tok st = some ⟨[], "You pick up the " ++ tok ++ ".",
      { st with
        game_map := { st.game_map with
          rooms := setRoomItems st.game_map.rooms st.current_room (its.erase tok) },
        inventory := st.inventory ++ [tok] }⟩ := by
  have hc : its.contains tok = true := by simpa using htok
  simp only [handle_get, if_neg hne, hroom, hits, hc, if_true]

/-- The `get` handler on a token absent from the room's item list keeps
the state and says no such item is here. -/
theorem handle_get_absent (st : GameState) (room : Room) (its : List String)
    (tok : String) (hroom : get_current_room st = some room)
    (hits : room.items = some its) (htok : tok ∉ its) (hne : tok ≠ "") :
    handle_get tok st = some ⟨[], "There\x27s no " ++ tok ++ " anywhere.", st⟩ := by
  have hc : its.contains tok = false := by
    cases hcc : its.contains tok with
    | false => rfl
    | true => exact absurd (by simpa using hcc) htok
  simp only [handle_get, if_neg hne, hroom, hits, hc, Bool.false_eq_true, if_false]

/-- The `get` handler in a room without an items field keeps the state
and says no such item is here. -/
theorem handle_get_noitems (st : GameState) (room : Room) (tok : String)
    (hroom : get_current_room st = some room) (hits : room.items = none)
    (hne : tok ≠ "") :
    handle_get tok st = some ⟨[], "There\x27s no " ++ tok ++ " anywhere.", st⟩ := by
  simp only [handle_get, if_neg hne, hroom, hits]

/-- The `drop` handler with an empty argument asks for an item name. -/
theorem handle_drop_empty (st : GameState) :
    handle_drop "" st = some ⟨[], "Sorry, you need to \x27drop\x27 something.", st⟩ := rfl

/-- The `drop` handler, in a room that has an items field, on an item the
player carries: the first occurrence leaves the inventory and the name is
appended to the room's item list. -/
theorem handle_drop_carried (st : GameState) (room : Room) (its : List String)
    (tok : String) (hroom : get_current_room st = some room)
    (hits : room.items = some its) (hinv : tok ∈ st.inventory) (hne : tok ≠ "") :
    handle_drop tok st = some ⟨[], "You drop the " ++ tok ++ ".",
      { st with
        game_map := { st.game_map with
          rooms := setRoomItems st.game_map.rooms st.current_room (its ++ [tok]) },
        inventory := st.inventory.erase tok }⟩ := by
  have hc : st.inventory.contains tok = true := by simpa using hinv
  simp only [handle_drop, if_neg hne, hroom, hits, hc, if_true]

/-- The `drop` handler on an item the player does not carry keeps the
state. -/
theorem handle_drop_uncarried (st : GameState) (room : Room) (its : List String)
    (tok : String) (hroom : get_current_room st = some room)
    (hits : room.items = some its) (hinv : tok ∉ st.inventory) (hne : tok ≠ "") :
    handle_drop tok st = some ⟨[], "You don\x27t have " ++ tok ++
      " or you can\x27t drop " ++ tok ++ " in this room", st⟩ := by
  have hc : st.inventory.contains tok = false := by
    cases hcc : st.inventory.contains tok with
    | false => rfl
    | true => exact absurd (by simpa using hcc) hinv
  simp only [handle_drop, if_neg hne, hroom, hits, hc, Bool.false_eq_true, if_false]

/-- The `drop` handler in a room without an items field keeps the state,
whatever the inventory holds. -/
theorem handle_drop_noitems (st : GameState) (room : Room) (tok : String)
    (hroom : get_current_room st = some room) (hits : room.items = none)
    (hne : tok ≠ "") :
    handle_drop tok st = some ⟨[], "You don\x27t have " ++ tok ++
      " or you can\x27t drop " ++ tok ++ " in this room", st⟩ := by
  simp only [handle_drop, if_neg hne, hroom, hits]

/-- The `look` handler renders the current room and keeps the state. -/
theorem handle_look_some (st : GameState)
    (h : st.current_room ∈ roomNames st.game_map) :
    ∃ desc, look st = some desc ∧ handle_look st = some ⟨[], desc, st⟩ := by
  obtain ⟨desc, hdesc⟩ := look_isSome st h
  exact ⟨desc, hdesc, by simp only [handle_look, hdesc]⟩

/-- Core safety of a direction move: the direction handler always
returns, keeps the world valid, never renames rooms, and on an
unreachable direction keeps the state and the session. -/
theorem direction_core (cmd : String) (st : GameState) (h : validState st) :
    ∃ r, handle_direction cmd st = some r ∧ validState r.state ∧
      roomNames r.state.game_map = roomNames st.game_map ∧
      ((match get_current_room st with
        | some room => (lookupExit room.exits cmd).isNone
        | none => false) = true → r.state = st ∧ r.response ≠ "quit") := by
  obtain ⟨hok, hmem⟩ := h
  obtain ⟨room, hroom, hroommem, -⟩ := get_current_room_of_mem st hmem
  cases hex : lookupExit room.exits cmd with
  | none =>
    refine ⟨_, handle_direction_noexit cmd st room hroom hex, ⟨hok, hmem⟩, rfl, ?_⟩
    intro _
    exact ⟨rfl, append_ne_quit "There\x27s no way to go " cmd "." (by decide)⟩
  | some t =>
    have hmem2 : t ∈ roomNames st.game_map :=
      exit_target_mem st.game_map hok room hroommem cmd t hex
    obtain ⟨desc, -, heq⟩ := handle_direction_exit cmd st room t hroom hex hmem2
    refine ⟨_, heq, ⟨hok, hmem2⟩, rfl, ?_⟩
    intro hinv
    simp only [hroom, hex, Option.isNone_some] at hinv
    exact absurd hinv Bool.false_ne_true

/-- Core safety of the `get` verb for an arbitrary item token. -/
theorem get_core (tok : String) (st : GameState) (h : validState st) :
    ∃ r, handle_get tok st = some r ∧ validState r.state ∧
      roomNames r.state.game_map = roomNames st.game_map ∧
      ((match get_current_room st with
        | some room =>
          tok == "" || !(match room.items with
            | some its => its.contains tok
            | none => false)
        | none => false) = true → r.state = st ∧ r.response ≠ "quit") := by
  obtain ⟨hok, hmem⟩ := h
  obtain ⟨room, hroom, -, -⟩ := get_current_room_of_mem st hmem
  by_cases htok : tok = ""
  · subst htok
    exact ⟨_, handle_get_empty st, ⟨hok, hmem⟩, rfl, fun _ =>
      ⟨rfl, (by decide : ("Sorry, you need to \x27get\x27 something." : String) ≠ "quit")⟩⟩
  · cases hits : room.items with
    | none =>
      refine ⟨_, handle_get_noitems st room tok hroom hits htok, ⟨hok, hmem⟩, rfl, ?_⟩
      intro _
      exact ⟨rfl, append_ne_quit "There\x27s no " tok " anywhere." (by decide)⟩
    | some its =>
      by_cases hin : tok ∈ its
      · refine ⟨_, handle_get_found st room its tok hroom hits hin htok, ?_, ?_, ?_⟩
        · constructor
          · rw [show ({ st with
                game_map := { st.game_map with
                  rooms := setRoomItems st.game_map.rooms st.current_room (its.erase tok) },
                inventory := st.inventory ++ [tok] } : GameState).game_map =
              { st.game_map with
                rooms := setRoomItems st.game_map.rooms st.current_room (its.erase tok) } from rfl,
              exits_ok_setRoomItems]
            exact hok
          · rw [show ({ st with
                game_map := { st.game_map with
                  rooms := setRoomItems st.game_map.rooms st.current_room (its.erase tok) },
                inventory := st.inventory ++ [tok] } : GameState).game_map =
              { st.game_map with
                rooms := setRoomItems st.game_map.rooms st.current_room (its.erase tok) } from rfl,
              roomNames_setRoomItems]
            exact hmem
        · exact roomNames_setRoomItems st.game_map st.current_room (its.erase tok)
        · intro hinv
          have hc : its.contains tok = true := by simpa using hin
          simp only [hroom, hits, hc, Bool.not_true, Bool.or_false, beq_iff_eq, htok] at hinv
      · refine ⟨_, handle_get_absent st room its tok hroom hits hin htok, ⟨hok, hmem⟩, rfl, ?_⟩
        intro _
        exact ⟨rfl, append_ne_quit "There\x27s no " tok " anywhere." (by decide)⟩

/-- Core safety of the `drop` verb for an arbitrary item token. -/
theorem drop_core (tok : String) (st : GameState) (h : validState st) :
    ∃ r, handle_drop tok st = some r ∧ validState r.state ∧
      roomNames r.state.game_map = roomNames st.game_map ∧
      ((match get_current_room st with
        | some room =>
          tok == "" ||
            !((match room.items with | some _ => true | none => false) &&
              st.inventory.contains tok)
        | none => false) = true → r.state = st ∧ r.response ≠ "quit") := by
  obtain ⟨hok, hmem⟩ := h
  obtain ⟨room, hroom, -, -⟩ := get_current_room_of_mem st hmem
  by_cases htok : tok = ""
  · subst htok
    exact ⟨_, handle_drop_empty st, ⟨hok, hmem⟩, rfl, fun _ =>
      ⟨rfl, (by decide : ("Sorry, you need to \x27drop\x27 something." : String) ≠ "quit")⟩⟩
  · cases hits : room.items with
    | none =>
      refine ⟨_, handle_drop_noitems st room tok hroom hits htok, ⟨hok, hmem⟩, rfl, ?_⟩
      intro _
      refine ⟨rfl, ?_⟩
      apply ne_quit_of_len
      rw [String.length_append, String.length_append, String.length_append,
        String.length_append]
      have : ("You don\x27t have " : String).length = 15 := by decide
      omega
    | some its =>
      by_cases hin : tok ∈ st.inventory
      · refine ⟨_, handle_drop_carried st room its tok hroom hits hin htok, ?_, ?_, ?_⟩
        · constructor
          · rw [show ({ st with
                game_map := { st.game_map with
                  rooms := setRoomItems st.game_map.rooms st.current_room (its ++ [tok]) },
                inventory := st.inventory.erase tok } : GameState).game_map =
              { st.game_map with
                rooms := setRoomItems st.game_map.rooms st.current_room (its ++ [tok]) } from rfl,
              exits_ok_setRoomItems]
            exact hok
          · rw [show ({ st with
                game_map := { st.game_map with
                  rooms := setRoomItems st.game_map.rooms st.current_room (its ++ [tok]) },
                inventory := st.inventory.erase tok } : GameState).game_map =
              { st.game_map with
                rooms := setRoomItems st.game_map.rooms st.current_room (its ++ [tok]) } from rfl,
              roomNames_setRoomItems]
            exact hmem
        · exact roomNames_setRoomItems st.game_map st.current_room (its ++ [tok])
        · intro hinv
          have hc : st.inventory.contains tok = true := by simpa using hin
          simp only [hroom, hits, hc, Bool.and_true, Bool.not_true, Bool.or_false,
            beq_iff_eq, htok] at hinv
      · refine ⟨_, handle_drop_uncarried st room its tok hroom hits hin htok, ⟨hok, hmem⟩, rfl, ?_⟩
        intro _
        refine ⟨rfl, ?_⟩
        apply ne_quit_of_len
        rw [String.length_append, String.length_append, String.length_append,
          String.length_append]
        have : ("You don\x27t have " : String).length = 15 := by decide
        omega

/-- Master safety of the dispatch chain: on a valid state every branch
returns a result, keeps the world valid and its name set unchanged, and
an invalid command keeps the state and does not end the session. -/
theorem dispatch_spec (command cmd : String) (rest : List String)
    (st : GameState) (h : validState st) :
    ∃ r, dispatch command cmd rest st = some r ∧ validState r.state ∧
      roomNames r.state.game_map = roomNames st.game_map ∧
      (invalidDispatch command cmd rest st = true →
        r.state = st ∧ r.response ≠ "quit") := by
  by_cases h1 : cmd = "quit"
  · subst h1
    refine ⟨⟨["Goodbye!"], "quit", st⟩, rfl, h, rfl, ?_⟩
    intro hinv
    exact absurd hinv Bool.false_ne_true
  by_cases h2 : cmd = "go"
  · subst h2
    cases rest with
    | nil =>
      refine ⟨⟨[], "Sorry, you need to \x27go\x27 somewhere.", st⟩, rfl, h, rfl, ?_⟩
      intro _
      exact ⟨rfl, (by decide : ("Sorry, you need to \x27go\x27 somewhere." : String) ≠ "quit")⟩
    | cons d rest2 =>
      exact direction_core d st h
  by_cases h3 : cmd = "east" ∨ cmd = "west" ∨ cmd = "south" ∨ cmd = "north" ∨
      cmd = "southeast" ∨ cmd = "southwest" ∨ cmd = "northeast" ∨
      cmd = "northwest"
  · rcases h3 with rfl | rfl | rfl | rfl | rfl | rfl | rfl | rfl
    · exact direction_core "east" st h
    · exact direction_core "west" st h
    · exact direction_core "south" st h
    · exact direction_core "north" st h
    · exact direction_core "southeast" st h
    · exact direction_core "southwest" st h
    · exact direction_core "northeast" st h
    · exact direction_core "northwest" st h
  by_cases h4 : cmd = "look"
  · subst h4
    obtain ⟨desc, -, hl⟩ := handle_look_some st h.2
    refine ⟨⟨[], desc, st⟩, hl, h, rfl, ?_⟩
    intro hinv
    exact absurd hinv Bool.false_ne_true
  by_cases h5 : cmd = "get"
  · subst h5
    exact get_core (pyStrip (pyDrop 3 command)) st h
  by_cases h6 : cmd = "drop"
  · subst h6
    exact drop_core (pyStrip (pyDrop 4 command)) st h
  by_cases h7 : cmd = "inventory"
  · subst h7
    refine ⟨⟨[], handle_inventory st, st⟩, rfl, h, rfl, ?_⟩
    intro hinv
    exact absurd hinv Bool.false_ne_true
  by_cases h8 : cmd = "help"
  · subst h8
    refine ⟨⟨[], handle_help function_dict_keys, st⟩, rfl, h, rfl, ?_⟩
    intro hinv
    exact absurd hinv Bool.false_ne_true
  -- unknown first word
  have hd : dispatch command cmd rest st = some ⟨[], "Use \x27quit\x27 to exit.", st⟩ := by
    rw [dispatch, if_neg h1, if_neg h2, if_neg h3, if_neg h4, if_neg h5,
      if_neg h6, if_neg h7, if_neg h8]
  refine ⟨⟨[], "Use \x27quit\x27 to exit.", st⟩, hd, h, rfl, ?_⟩
  intro _
  exact ⟨rfl, (by decide : ("Use \x27quit\x27 to exit." : String) ≠ "quit")⟩

/-- Master safety of one processed line: on a valid state the turn
returns, keeps the world valid and its name set, and an invalid line
keeps the state and does not end the session. -/
theorem process_spec (command : String) (st : GameState) (h : validState st) :
    ∃ r, process_command command st = some r ∧ validState r.state ∧
      roomNames r.state.game_map = roomNames st.game_map ∧
      (invalidCommand command st = true → r.state = st ∧ r.response ≠ "quit") := by
  cases hws : pySplit (pyLower (pyStrip command)) with
  | nil =>
    refine ⟨⟨[], "You need to enter a command.", st⟩, ?_, h, rfl, ?_⟩
    · simp only [process_command, hws]
    · intro _
      exact ⟨rfl, (by decide : ("You need to enter a command." : String) ≠ "quit")⟩
  | cons cmd rest =>
    have hd : process_command command st = dispatch command cmd rest st := by
      simp only [process_command, hws]
    have hi : invalidCommand command st = invalidDispatch command cmd rest st := by
      simp only [invalidCommand, hws]
    rw [hd, hi]
    exact dispatch_spec command cmd rest st h

/-- Threading any line list through the turn loop keeps the world valid
and its name set unchanged. -/
theorem runCommands_preserves (cmds : List String) :
    ∀ st st', validState st → runCommands cmds st = some st' →
      validState st' ∧ roomNames st'.game_map = roomNames st.game_map := by
  induction cmds with
  | nil =>
    intro st st' h hr
    obtain rfl : st = st' := by simpa [runCommands] using hr
    exact ⟨h, rfl⟩
  | cons c cs ih =>
    intro st st' h hr
    obtain ⟨r, hrsome, hv, hn, -⟩ := process_spec c st h
    simp only [runCommands, hrsome] at hr
    obtain ⟨hv', hn'⟩ := ih r.state st' hv hr
    exact ⟨hv', hn'.trans hn⟩

/-- A reachable state of a well-started world is valid. -/
theorem reachable_valid (gm : GameMap) (st : GameState)
    (h1 : exits_ok gm = true) (h2 : gm.start ∈ roomNames gm)
    (h3 : Reachable gm st) :
    validState st ∧ roomNames st.game_map = roomNames gm := by
  obtain ⟨cmds, hrun⟩ := h3
  exact runCommands_preserves cmds (GameState.init gm) st ⟨h1, h2⟩ hrun

/-! ## The claims -/

/-- Claim C1, counterexample to the claim as stated: room B's only exit
is "south", yet the command "go s" does not move the player through it —
the state is unchanged and the response says there is no way to go "s".
Likewise "go n" against the exits north/northeast/northwest produces no
disambiguation, only the no-way response. -/
theorem C1_cex :
    roomB.exits = [("south", "A")] ∧ get_current_room stB = some roomB ∧
    process_command "go s" stB = some ⟨[], "There\x27s no way to go s.", stB⟩ ∧
    roomN.exits.map (fun kv => kv.1) = ["north", "northeast", "northwest"] ∧
    process_command "go n" stN = some ⟨[], "There\x27s no way to go n.", stN⟩ := by
  decide

/-- Claim C1, amended: the go handler resolves the direction token by
exact string equality against the current room's exit names, not by
prefix matching: a token equal to an exit name moves the player and
returns the new room's rendering, and any other token — including a
proper abbreviation such as "s" for "south" — leaves the state unchanged
with the no-way response; no ambiguous outcome exists. -/
theorem C1_exact_go (st : GameState) (room : Room) (d : String)
    (rest : List String) (h : validState st)
    (hroom : get_current_room st = some room) :
    (lookupExit room.exits d = none →
      handle_go (d :: rest) st =
        some ⟨[], "There\x27s no way to go " ++ d ++ ".", st⟩) ∧
    (∀ target, lookupExit room.exits d = some target →
      ∃ desc, look { st with current_room := target } = some desc ∧
        handle_go (d :: rest) st =
          some ⟨["You go " ++ d ++ ".\n"], desc, { st with current_room := target }⟩) := by
  constructor
  · intro hex
    rw [handle_go_cons]
    exact handle_direction_noexit d st room hroom hex
  · intro target hex
    rw [handle_go_cons]
    exact handle_direction_exit d st room target hroom hex
      (exit_target_mem st.game_map h.1 room (List.mem_of_find?_eq_some hroom) d target hex)

/-- Claim C1, witness: the amended theorem applied in room B to the
abbreviation "s". -/
theorem C1_wit :
    validState stB ∧
    handle_go ["s"] stB = some ⟨[], "There\x27s no way to go s.", stB⟩ :=
  ⟨⟨by decide, by decide⟩,
    (C1_exact_go stB roomB "s" [] ⟨by decide, by decide⟩ (by decide)).1 (by decide)⟩

/-- Claim C2, counterexample to the claim as stated: with room items
"deck of cards" and "bandana", the tokens "a" and "deck" are substrings
of item names, yet `get a` is not ambiguous and `get deck` matches
nothing — both leave the state unchanged with the no-such-item
response. -/
theorem C2_cex :
    get_current_room stG = some roomG ∧
    roomG.items = some ["deck of cards", "bandana"] ∧
    strContains "deck of cards" "a" = true ∧ strContains "bandana" "a" = true ∧
    strContains "deck of cards" "deck" = true ∧
    process_command "get a" stG = some ⟨[], "There\x27s no a anywhere.", stG⟩ ∧
    process_command "get deck" stG =
      some ⟨[], "There\x27s no deck anywhere.", stG⟩ := by
  decide

/-- Claim C2, amended: the get handler matches its item token by exact
string equality against the item names present in the current room, not
by substring: an exact item name is removed from the room's item list
and appended to the inventory with the pick-up response, and any other
non-empty token — including a proper substring of an item name — leaves
the state unchanged with the no-such-item response. -/
theorem C2_exact_get (st : GameState) (room : Room) (its : List String)
    (tok : String) (hroom : get_current_room st = some room)
    (hits : room.items = some its) (hne : tok ≠ "") :
    (tok ∈ its → handle_get tok st =
      some ⟨[], "You pick up the " ++ tok ++ ".",
        { st with
          game_map := { st.game_map with
            rooms := setRoomItems st.game_map.rooms st.current_room (its.erase tok) },
          inventory := st.inventory ++ [tok] }⟩) ∧
    (tok ∉ its → handle_get tok st =
      some ⟨[], "There\x27s no " ++ tok ++ " anywhere.", st⟩) :=
  ⟨fun hin => handle_get_found st room its tok hroom hits hin hne,
   fun hout => handle_get_absent st room its tok hroom hits hout hne⟩

/-- Claim C2, witness: the amended theorem applied in room G to the
substring token "deck". -/
theorem C2_wit :
    handle_get "deck" stG = some ⟨[], "There\x27s no deck anywhere.", stG⟩ :=
  (C2_exact_get stG roomG ["deck of cards", "bandana"] "deck"
    (by decide) (by decide) (by decide)).2 (by decide)

/-- Claim C3: on every state reachable in a well-started valid world,
processing any input line returns a response (the embedding never hits a
crashing `none`), and every malformed, ambiguous, or semantically
invalid command — empty line, unknown verb, unreachable direction,
absent item, empty argument — leaves the game state unchanged and does
not end the session. -/
theorem C3_no_crash (gm : GameMap) (st : GameState) (command : String)
    (h1 : exits_ok gm = true) (h2 : gm.start ∈ roomNames gm)
    (h3 : Reachable gm st) :
    ∃ r, process_command command st = some r ∧
      (invalidCommand command st = true →
        r.state = st ∧ r.response ≠ "quit") := by
  obtain ⟨hv, -⟩ := reachable_valid gm st h1 h2 h3
  obtain ⟨r, hr, -, -, himp⟩ := process_spec command st hv
  exact ⟨r, hr, himp⟩

/-- Claim C3, witness: the unknown-verb line "xyzzy" at the start state
of the test world. -/
theorem C3_wit :
    exits_ok map1 = true ∧ map1.start ∈ roomNames map1 ∧
    invalidCommand "xyzzy" (GameState.init map1) = true ∧
    (∃ r, process_command "xyzzy" (GameState.init map1) = some r ∧
      (invalidCommand "xyzzy" (GameState.init map1) = true →
        r.state = GameState.init map1 ∧ r.response ≠ "quit")) :=
  ⟨by decide, by decide, by decide,
    C3_no_crash map1 (GameState.init map1) "xyzzy" (by decide) (by decide) ⟨[], rfl⟩⟩

/-- Claim C4: the claim is right about the intended design and the code
is wrong — `validate_map` never checks that the start identity names a
room.  The world `jNoStart` declares start "nowhere" over a single room
"A": the validator accepts it, it decodes to the structured world, its
start is not in the room set, and the game state built from it has a
dangling current room (`get_current_room` is `none`, so the very first
`look` of the session would crash instead of having been rejected at
load time). -/
theorem C4_start_unchecked :
    validate_map jNoStart = some true ∧ decodeMap jNoStart = some gmNoStart ∧
    gmNoStart.start ∉ roomNames gmNoStart ∧
    get_current_room (GameState.init gmNoStart) = none := by
  decide

/-- Claim C5, counterexample to the claim as stated: a validator-accepted
world whose start identity names no room begins play (after zero
commands) with a `current_room` that is not in the room set. -/
theorem C5_cex :
    validate_map jNoStart = some true ∧ decodeMap jNoStart = some gmNoStart ∧
    runCommands [] (GameState.init gmNoStart) = some (GameState.init gmNoStart) ∧
    (GameState.init gmNoStart).current_room ∉ roomNames gmNoStart := by
  decide

/-- Claim C5, amended: for every world with no dangling exit whose start
identity does name a room, `current_room` is a name in the world's room
set after every sequence of processed commands — it starts at the start
room and every movement sets it to an exit target, which the validated
world keeps inside the name set; the room set's names are also never
changed by play. -/
theorem C5_current_in_rooms (gm : GameMap) (cmds : List String)
    (st' : GameState) (h1 : exits_ok gm = true) (h2 : gm.start ∈ roomNames gm)
    (h3 : runCommands cmds (GameState.init gm) = some st') :
    st'.current_room ∈ roomNames gm ∧
    roomNames st'.game_map = roomNames gm := by
  obtain ⟨⟨-, hm⟩, hn⟩ := runCommands_preserves cmds (GameState.init gm) st' ⟨h1, h2⟩ h3
  exact ⟨hn ▸ hm, hn⟩

/-- Claim C5, witness: after "go north" from the start of the test
world, the current room "B" is in the room set. -/
theorem C5_wit :
    (⟨map1, "B", []⟩ : GameState).current_room ∈ roomNames map1 ∧
    roomNames (⟨map1, "B", []⟩ : GameState).game_map = roomNames map1 :=
  C5_current_in_rooms map1 ["go north"] ⟨map1, "B", []⟩
    (by decide) (by decide) (by decide)

/-- Claim C6: a successful `get` of an item present in the current room
followed by a `drop` of the same item leaves the current room's item
list and the inventory with exactly the same membership as before the
pair, and the player in the same room. -/
theorem C6_get_drop_roundtrip (st : GameState) (room : Room)
    (its : List String) (x : String) (hroom : get_current_room st = some room)
    (hits : room.items = some its) (hx : x ∈ its) (hne : x ≠ "") :
    ∃ r1 r2 room2 its2,
      handle_get x st = some r1 ∧ handle_drop x r1.state = some r2 ∧
      r2.state.current_room = st.current_room ∧
      get_current_room r2.state = some room2 ∧ room2.items = some its2 ∧
      (∀ y, y ∈ its2 ↔ y ∈ its) ∧
      (∀ y, y ∈ r2.state.inventory ↔ y ∈ st.inventory) := by
  have h1 := handle_get_found st room its x hroom hits hx hne
  have hroom1 := get_current_room_setRoomItems st room hroom (its.erase x)
    (st.inventory ++ [x])
  have hx1 : x ∈ st.inventory ++ [x] := List.mem_append_right _ (by simp)
  have h2 := handle_drop_carried
    { st with
      game_map := { st.game_map with
        rooms := setRoomItems st.game_map.rooms st.current_room (its.erase x) },
      inventory := st.inventory ++ [x] }
    { room with items := some (its.erase x) } (its.erase x) x hroom1 rfl hx1 hne
  have hroom2 := get_current_room_setRoomItems
    { st with
      game_map := { st.game_map with
        rooms := setRoomItems st.game_map.rooms st.current_room (its.erase x) },
      inventory := st.inventory ++ [x] }
    { room with items := some (its.erase x) } hroom1 (its.erase x ++ [x])
    ((st.inventory ++ [x]).erase x)
  refine ⟨_, _, { room with items := some (its.erase x ++ [x]) },
    its.erase x ++ [x], h1, h2, rfl, hroom2, rfl, ?_, ?_⟩
  · intro y
    exact (erase_append_self_perm its x hx).mem_iff
  · intro y
    exact (append_erase_self_perm st.inventory x).mem_iff

/-- Claim C6, witness: picking up and dropping the deck of cards in room
G restores the room's item membership and the empty inventory. -/
theorem C6_wit :
    ∃ r1 r2 room2 its2,
      handle_get "deck of cards" stG = some r1 ∧
      handle_drop "deck of cards" r1.state = some r2 ∧
      r2.state.current_room = stG.current_room ∧
      get_current_room r2.state = some room2 ∧ room2.items = some its2 ∧
      (∀ y, y ∈ its2 ↔ y ∈ ["deck of cards", "bandana"]) ∧
      (∀ y, y ∈ r2.state.inventory ↔ y ∈ stG.inventory) :=
  C6_get_drop_roundtrip stG roomG ["deck of cards", "bandana"] "deck of cards"
    (by decide) (by decide) (by decide) (by decide)

/-- Claim C7, counterexample to the claim as stated: the player in room
C carries "key", yet `drop key` fails — success does not depend only on
the name being in the inventory, because room C has no items field. -/
theorem C7_cex :
    "key" ∈ stC.inventory ∧ get_current_room stC = some roomC ∧
    roomC.items = none ∧
    handle_drop "key" stC =
      some ⟨[], "You don\x27t have key or you can\x27t drop key in this room", stC⟩ := by
  decide

/-- Claim C7, amended: for a non-empty item name, `drop` succeeds exactly
when the current room has an items field and the exact name is in the
inventory — then the first occurrence leaves the inventory, the name is
appended to the room's item list, and the response is the drop message;
in every other case (no items field, or name not carried) the state is
unchanged and the response is the cannot-drop message. -/
theorem C7_drop_spec (st : GameState) (room : Room) (x : String)
    (hne : x ≠ "") (hroom : get_current_room st = some room) :
    (∀ its, room.items = some its → x ∈ st.inventory →
      handle_drop x st = some ⟨[], "You drop the " ++ x ++ ".",
        { st with
          game_map := { st.game_map with
            rooms := setRoomItems st.game_map.rooms st.current_room (its ++ [x]) },
          inventory := st.inventory.erase x }⟩) ∧
    (room.items = none ∨ x ∉ st.inventory →
      handle_drop x st = some ⟨[], "You don\x27t have " ++ x ++
        " or you can\x27t drop " ++ x ++ " in this room", st⟩) := by
  constructor
  · intro its hits hinv
    exact handle_drop_carried st room its x hroom hits hinv hne
  · intro hfail
    cases hits : room.items with
    | none => exact handle_drop_noitems st room x hroom hits hne
    | some its =>
      rcases hfail with hnone | hout
      · rw [hits] at hnone
        exact absurd hnone (by simp)
      · exact handle_drop_uncarried st room its x hroom hits hout hne

/-- Claim C7, witness: the amended theorem applied to the carried "key"
in itemless room C. -/
theorem C7_wit :
    handle_drop "key" stC = some ⟨[], "You don\x27t have key or you can\x27t drop key in this room", stC⟩ :=
  (C7_drop_spec stC roomC "key" (by decide) (by decide)).2 (Or.inl (by decide))

/-- Claim C8, counterexample to the claim as stated: moving south from
room B returns only the rendering of room A — the returned response does
not equal "You go south." followed by that rendering (with or without a
newline between); the "You go south." line is passed to the console
print instead, bypassing the returned string. -/
theorem C8_cex :
    handle_go ["south"] stB = some ⟨["You go south.\n"],
      "> A\n\nYou are in room A.\n\nExits: north\n", ⟨map1, "A", []⟩⟩ ∧
    ("> A\n\nYou are in room A.\n\nExits: north\n" : String) ≠
      "You go south." ++ "> A\n\nYou are in room A.\n\nExits: north\n" ∧
    ("> A\n\nYou are in room A.\n\nExits: north\n" : String) ≠
      "You go south.\n" ++ "> A\n\nYou are in room A.\n\nExits: north\n" := by
  decide

/-- Claim C8, amended: on a direction that is an exit of the current
room, the go handler moves the player, returns exactly the full room
description of the destination (the same rendering `look` produces), and
prints the line "You go `<direction>`.\n" directly to the console — that
line bypasses the returned response string. -/
theorem C8_go_response (st : GameState) (room : Room) (d target : String)
    (rest : List String) (h : validState st)
    (hroom : get_current_room st = some room)
    (hex : lookupExit room.exits d = some target) :
    ∃ desc, look { st with current_room := target } = some desc ∧
      handle_go (d :: rest) st =
        some ⟨["You go " ++ d ++ ".\n"], desc, { st with current_room := target }⟩ := by
  rw [handle_go_cons]
  exact handle_direction_exit d st room target hroom hex
    (exit_target_mem st.game_map h.1 room (List.mem_of_find?_eq_some hroom) d target hex)

/-- Claim C8, witness: the amended theorem applied to "go south" in room
B. -/
theorem C8_wit :
    ∃ desc, look { stB with current_room := "A" } = some desc ∧
      handle_go ["south"] stB =
        some ⟨["You go south.\n"], desc, { stB with current_room := "A" }⟩ :=
  C8_go_response stB roomB "south" "A" [] ⟨by decide, by decide⟩
    (by decide) (by decide)

/-- Claim C9, counterexample to the claim as stated: the help response
enumerates every key of the handler dictionary, which includes the eight
bare direction aliases besides the seven verbs — it is not the verb list
go, look, get, drop, inventory, help, quit and nothing else. -/
theorem C9_cex :
    handle_help function_dict_keys =
      "You can run the following commands:\ngo\neast\nwest\nsouth\nnorth\nsoutheast\nsouthwest\nnortheast\nnorthwest\nlook\nget\ndrop\ninventory\nhelp\nquit" ∧
    "east" ∈ function_dict_keys ∧
    function_dict_keys ≠ ["go", "look", "get", "drop", "inventory", "help", "quit"] := by
  decide

/-- Claim C9, amended: for every game state, the help command returns
the fixed enumeration of all fifteen `function_dict` keys in insertion
order — go, the eight direction aliases, look, get, drop, inventory,
help, quit — one per line under the header, with no state change and
nothing printed. -/
theorem C9_help_enumerates (st : GameState) :
    process_command "help" st = some ⟨[],
      "You can run the following commands:\ngo\neast\nwest\nsouth\nnorth\nsoutheast\nsouthwest\nnortheast\nnorthwest\nlook\nget\ndrop\ninventory\nhelp\nquit",
      st⟩ := rfl

/-- Claim C10: entering one of the eight direction words alone behaves
exactly like entering "go" followed by that word — the same returned
response, the same printed output and the same state mutation (the two
handlers share one body). -/
theorem C10_bare_direction (st : GameState) (d : String)
    (h : d = "east" ∨ d = "west" ∨ d = "south" ∨ d = "north" ∨
      d = "southeast" ∨ d = "southwest" ∨ d = "northeast" ∨ d = "northwest") :
    process_command d st = process_command ("go " ++ d) st := by
  rcases h with rfl | rfl | rfl | rfl | rfl | rfl | rfl | rfl <;> rfl

/-- Claim C10, witness: "east" alone and "go east" agree at the start
state of the test world. -/
theorem C10_wit :
    process_command "east" (GameState.init map1) =
      process_command ("go " ++ "east") (GameState.init map1) :=
  C10_bare_direction (GameState.init map1) "east" (Or.inl rfl)
